import Mathlib

/-
Verification of the deltabanana refreshing-cache / git-synchronizer core.

Shallow embedding of src/caches.py (RefreshCache, LimitedTtlCache) and
src/gitsource.py (GitSource and its nested synchronizer), specialized to a
single repository key where the source code is per-key, with external git
effects (clone/pull success, resulting HEAD revision, working-tree status,
push outcome) supplied as an explicit environment per sync cycle.
-/

namespace Deltabanana

/-- GitFileLink (src/gitsource.py lines 21-33): url, branch and path of one
tracked file. The dataclass is frozen with structural equality. -/
structure GitFileLink where
  url : String
  branch : String
  path : String
deriving DecidableEq, Repr

/-- A registered change, src/gitsource.py lines 36-39: the link it targets and
an opaque payload (payloads modelled as Nat). -/
structure Change where
  link : GitFileLink
  content : Nat
deriving DecidableEq, Repr

/-- CachedFiles (src/gitsource.py lines 42-47): revision string, the per
repository re-entrant lock (modelled by an allocation tag lockId), the memoized
content map (path to parsed value, values modelled as Nat) and the pending
changes list. In Python the changes list is shared by object identity between
an old state and the state a sync cycle builds from it; the embedding threads
the final list contents explicitly. -/
structure CachedFiles where
  rev : String
  lockId : Nat
  content : List (String × Nat)
  changes : List Change
deriving DecidableEq, Repr

/-- Outcome of the commit-and-push steps of one sync cycle: porcelain push and
the steps around it either complete, raise dulwich porcelain Error (caught at
src/gitsource.py line 168), or raise some other exception (propagates to the
catch-all at line 148). -/
inductive PushBehavior
  | ok
  | raisesError
  | raisesOther
deriving DecidableEq, Repr

/-- External git effects of one sync cycle: whether clean/reset/pull (or the
initial clone) succeeds, the HEAD revision read after the cycle, whether
porcelain.status reports unstaged or untracked files after the write-back
callbacks ran, and how the commit/push steps behave. -/
structure SyncEnv where
  gitOk : Bool
  newRev : String
  stageNonempty : Bool
  push : PushBehavior
deriving DecidableEq, Repr

/-- itertools.groupby with key c.link as used at src/gitsource.py line 153:
groups only maximal runs of consecutive elements with equal keys. -/
def groupByConsec : List Change → List (GitFileLink × List Change)
  | [] => []
  | c :: cs =>
    match groupByConsec cs with
    | [] => [(c.link, [c])]
    | (k, g) :: rest =>
      if c.link = k then (k, c :: g) :: rest
      else (c.link, [c]) :: (k, g) :: rest

/-- The sequence of apply_changes_callback invocations made by the loop at
src/gitsource.py lines 153-154: one call per groupby group, carrying the
payloads of that group in order. -/
def applyCalls (cs : List Change) : List (GitFileLink × List Nat) :=
  (groupByConsec cs).map (fun p => (p.1, p.2.map Change.content))

/-- Result of GitSource.__add_commit_push (src/gitsource.py lines 151-169):
the applier calls made, whether an exception escaped the method (only
non-Error exceptions do), whether porcelain.push ran and completed, and the
contents of the (in-place mutated) changes list afterwards. changes.clear()
at line 167 runs after a completed push and also when nothing was staged; a
porcelain Error anywhere in the try block leaves the list intact. -/
structure PushResult where
  calls : List (GitFileLink × List Nat)
  uncaught : Bool
  pushed : Bool
  finalChanges : List Change
deriving DecidableEq, Repr

/-- GitSource.__add_commit_push, src/gitsource.py lines 151-169. -/
def addCommitPush (cs : List Change) (env : SyncEnv) : PushResult :=
  if env.stageNonempty then
    match env.push with
    | .ok => ⟨applyCalls cs, false, true, []⟩
    | .raisesError => ⟨applyCalls cs, false, false, cs⟩
    | .raisesOther => ⟨applyCalls cs, true, false, cs⟩
  else
    ⟨applyCalls cs, false, false, []⟩

/-- Result of one GitSource.__sync_repo invocation: the updated instance-wide
skip counter, the returned value (none models the implicit None return after
the catch-all at src/gitsource.py lines 148-149), the contents of the shared
changes list afterwards, the applier calls made, whether a push completed, and
whether the cycle reached the network section (skipped cycles do not). -/
structure SyncResult where
  skip : Nat
  result : Option CachedFiles
  finalChanges : List Change
  calls : List (GitFileLink × List Nat)
  pushed : Bool
  didSync : Bool
deriving DecidableEq, Repr

/-- Body of GitSource.__sync_repo after the skip check, src/gitsource.py lines
127-149: reset the skip counter, clean/reset/pull or clone (any failure is
swallowed by the except BaseException handler and the method returns None),
run __add_commit_push when there are pending changes (a non-Error exception
from it reaches the same handler), and build the fresh state with the new
revision, the carried lock, an empty content map and the shared changes
list. -/
def syncBody (cs : List Change) (lockId : Nat) (env : SyncEnv) : SyncResult :=
  if env.gitOk then
    if cs = [] then
      ⟨0, some ⟨env.newRev, lockId, [], []⟩, [], [], false, true⟩
    else
      let r := addCommitPush cs env
      if r.uncaught then
        ⟨0, none, r.finalChanges, r.calls, r.pushed, true⟩
      else
        ⟨0, some ⟨env.newRev, lockId, [], r.finalChanges⟩, r.finalChanges, r.calls, r.pushed, true⟩
  else
    ⟨0, none, cs, [], false, true⟩

/-- GitSource.__sync_repo, src/gitsource.py lines 118-149. The lock is the old
state lock when a previous state exists, else a fresh RLock (freshLock tag).
With a previous state that has no pending changes and a skip counter below
multiplier minus one, the cycle only increments the counter and returns the
previous state. -/
def syncRepo (M skip : Nat) (old : Option CachedFiles) (env : SyncEnv)
    (freshLock : Nat) : SyncResult :=
  match old with
  | some o =>
    if o.changes = [] ∧ skip < M - 1 then
      ⟨skip + 1, some o, o.changes, [], false, false⟩
    else
      syncBody o.changes o.lockId env
  | none => syncBody [] freshLock env

/-- Result of GitSource.__on_refresh, src/gitsource.py lines 171-175: either
the AttributeError raised when a previous state exists and the new value is
None (evaluation of new_files.rev at line 172), or the decision pair
(commit flag returned to RefreshCache, whether the refresh callback was
invoked). -/
inductive RefreshDecision
  | raised
  | decided (commit notified : Bool)
deriving DecidableEq, Repr

/-- GitSource.__on_refresh, src/gitsource.py lines 171-175. -/
def onRefresh (old new : Option CachedFiles) : RefreshDecision :=
  match old with
  | some o =>
    match new with
    | some n => if o.rev = n.rev then .decided false false else .decided true true
    | none => .raised
  | none => .decided true true

/-- GitSource.__register_change, src/gitsource.py lines 102-106: LookupError
when the path is absent from the content map, otherwise append to the pending
changes list. -/
inductive RegisterResult
  | lookupError
  | okay (cf : CachedFiles)
deriving DecidableEq, Repr

/-- GitSource.__register_change, src/gitsource.py lines 102-106. -/
def registerChange (link : GitFileLink) (v : Nat) (cf : CachedFiles) : RegisterResult :=
  if (cf.content.map Prod.fst).contains link.path then
    .okay { cf with changes := cf.changes ++ [⟨link, v⟩] }
  else
    .lookupError

/-- RefreshCache state for one key (src/caches.py lines 11-30), composed with
GitSource as its loader. cache models the dict entry of the key: none when the
key is absent, some v when cache[key] = v where v itself may be None (Python
stores whatever __load_and_save commits, including None). skip is the
GitSource instance-wide sync skip counter, nextLock the allocation tag for the
next fresh RLock. -/
structure CacheState where
  cache : Option (Option CachedFiles)
  skip : Nat
  nextLock : Nat
deriving DecidableEq, Repr

/-- Result of RefreshCache.__load_and_save for the caller: either an exception
propagated out of the method, or the returned value. -/
inductive LoadOutcome
  | raised
  | returned (v : Option CachedFiles)
deriving DecidableEq, Repr

/-- Observable outcome of one RefreshCache.__load_and_save call: the returned
value or exception, the updated cache state, whether the refresh callback
notified subscribers, the applier calls made, and whether the cycle reached
the network section. -/
structure StepOut where
  ret : LoadOutcome
  st : CacheState
  notified : Bool
  calls : List (GitFileLink × List Nat)
  didSync : Bool
deriving DecidableEq, Repr

/-- RefreshCache.__load_and_save (src/caches.py lines 43-50) with
GitSource.__sync_repo as load_func and GitSource.__on_refresh as
refresh_callback. old_value is cache.get(key) (None both when the key is
absent and when None is stored). The Python changes list is mutated in place,
so the previous state object held in the cache carries the final changes list
afterwards (kept). When the refresh callback returns True the new value is
stored and returned; when it returns False the previous (mutated) object is
returned; when it raises, the exception escapes with the cache entry not
reassigned. -/
def loadAndSave (M : Nat) (st : CacheState) (env : SyncEnv) : StepOut :=
  let old := st.cache.getD none
  let r := syncRepo M st.skip old env st.nextLock
  let nextLock := if old.isNone then st.nextLock + 1 else st.nextLock
  let oldAfter := old.map (fun o => { o with changes := r.finalChanges })
  let kept : Option (Option CachedFiles) :=
    match st.cache with
    | none => none
    | some _ => some oldAfter
  match onRefresh old r.result with
  | .raised => ⟨.raised, ⟨kept, r.skip, nextLock⟩, false, r.calls, r.didSync⟩
  | .decided true n => ⟨.returned r.result, ⟨some r.result, r.skip, nextLock⟩, n, r.calls, r.didSync⟩
  | .decided false n => ⟨.returned oldAfter, ⟨kept, r.skip, nextLock⟩, n, r.calls, r.didSync⟩

/-- RefreshCache.get (src/caches.py lines 32-41): return the stored entry when
the key is present (even a stored None), otherwise perform the synchronous
initial load via __load_and_save. -/
def cacheGet (M : Nat) (st : CacheState) (env : SyncEnv) : StepOut :=
  match st.cache with
  | some v => ⟨.returned v, st, false, [], false⟩
  | none => loadAndSave M st env

/-- State of the background refresh loop of one key: the cache state and
whether the looping thread is still alive. RefreshCache.__schedule
(src/caches.py lines 60-64) has no exception handler, so an exception from
__load_and_save terminates the daemon thread. -/
structure LoopState where
  cs : CacheState
  alive : Bool
deriving DecidableEq, Repr

/-- One iteration of RefreshCache.__schedule (src/caches.py lines 60-64):
sleep, take the key lock, run __load_and_save. An escaping exception kills
the loop; a dead loop performs no further work. -/
def tickS (M : Nat) (ls : LoopState) (env : SyncEnv) : LoopState :=
  if ls.alive then
    let o := loadAndSave M ls.cs env
    ⟨o.st, match o.ret with | .raised => false | .returned _ => true⟩
  else ls

/-- The background loop run over a list of per-tick environments. -/
def runLoop (M : Nat) (ls : LoopState) (envs : List SyncEnv) : LoopState :=
  envs.foldl (fun l e => tickS M l e) ls

/-- Initial loop state: key absent from the cache, skip counter zero. -/
def loopInit : LoopState := ⟨⟨none, 0, 0⟩, true⟩

/-- Two repository keys served by one GitSource instance: per-key cache
entries but a single shared skip counter, as in src/gitsource.py lines 59 and
118-128 where __sync_skip_count is an instance attribute not indexed by the
repository link. -/
structure TwoKeyState where
  a : Option (Option CachedFiles)
  b : Option (Option CachedFiles)
  skip : Nat
  nextLock : Nat
deriving DecidableEq, Repr

/-- One background-loop tick of one of the two keys (onA selects the key),
threading the shared skip counter through __load_and_save. Returns the new
state and whether the tick reached the network section. -/
def tick2 (M : Nat) (st : TwoKeyState) (onA : Bool) (env : SyncEnv) :
    TwoKeyState × Bool :=
  let c := if onA then st.a else st.b
  let o := loadAndSave M ⟨c, st.skip, st.nextLock⟩ env
  (if onA then ⟨o.st.cache, st.b, o.st.skip, o.st.nextLock⟩
   else ⟨st.a, o.st.cache, o.st.skip, o.st.nextLock⟩, o.didSync)

/-- A schedule of ticks over the two keys, collecting for each tick whether it
reached the network section. -/
def tick2run (M : Nat) (st : TwoKeyState) : List (Bool × SyncEnv) → TwoKeyState × List Bool
  | [] => (st, [])
  | s :: rest =>
    let p := tick2 M st s.1 s.2
    let q := tick2run M p.1 rest
    (q.1, p.2 :: q.2)

/-- One entry of the session cache: key, value and absolute expiry time. -/
structure TtlEntry where
  key : String
  value : Nat
  expiry : Nat
deriving DecidableEq, Repr

/-- LimitedTtlCache (src/caches.py lines 67-69): a cachetools TTLCache whose
popitem override raises CapacityException instead of evicting. -/
structure LimitedTtlCache where
  maxsize : Nat
  entries : List TtlEntry
deriving DecidableEq, Repr

/-- Modelled from the spec: the expiry sweep of the cachetools TTLCache base
class, which is a dependency not under src/. Entries whose expiry time has
passed are removed before an insertion is attempted. -/
def expire (now : Nat) (c : LimitedTtlCache) : LimitedTtlCache :=
  { c with entries := c.entries.filter (fun e => decide (now < e.expiry)) }

/-- Modelled from the spec: insertion of the cachetools TTLCache base class,
a dependency not under src/. It expires stale entries, updates in place when
the key is present, and otherwise evicts through popitem while the cache is
over capacity before appending; LimitedTtlCache overrides popitem to raise
CapacityException (src/caches.py lines 67-73), modelled by the Boolean raised
flag, leaving the entries as they stood after the expiry sweep. -/
def setItem (now : Nat) (k : String) (v ttl : Nat) (c : LimitedTtlCache) :
    Bool × LimitedTtlCache :=
  let c1 := expire now c
  if (c1.entries.map TtlEntry.key).contains k then
    (false, { c1 with entries := c1.entries.map (fun e => if e.key = k then ⟨k, v, now + ttl⟩ else e) })
  else if c1.maxsize < c1.entries.length + 1 then
    (true, c1)
  else
    (false, { c1 with entries := c1.entries ++ [⟨k, v, now + ttl⟩] })

/-- Parameter names of RefreshCache.__init__, src/caches.py lines 19-24; all
three are required (no defaults). -/
def refreshCacheParams : List String :=
  ["load_func", "refresh_callback", "refresh_rate_seconds"]

/-- Keyword argument names GitSource.__init__ passes to the RefreshCache
constructor, src/gitsource.py lines 74-78. -/
def gitSourceRefreshCacheKwargs : List String :=
  ["load_func", "refresh_callback", "sync_interval_seconds"]

/-- Python keyword-argument binding: a call succeeds only when every supplied
keyword matches a declared parameter and every required parameter is
supplied; otherwise the call raises TypeError before the function body
runs. -/
def bindKwargs (params kwargs : List String) : Bool :=
  kwargs.all (fun k => params.contains k) && params.all (fun p => kwargs.contains p)

/-- Constructor arguments of GitSource.__init__ (src/gitsource.py lines
61-68): the callbacks are opaque, the remaining arguments are carried here.
Keyword names in the internal RefreshCache call do not depend on these
values. -/
structure GitSourceInitArgs where
  syncIntervalSeconds : Nat
  noChangeMultiplier : Nat
  commitMessage : Option String
deriving DecidableEq, Repr

/-- GitSource.__init__, src/gitsource.py lines 61-78, reduced to whether the
construction completes: the field assignments cannot fail, and the final
RefreshCache call succeeds exactly when its keyword arguments bind. -/
def gitSourceInit (_args : GitSourceInitArgs) : Bool :=
  bindKwargs refreshCacheParams gitSourceRefreshCacheKwargs

/-- Whether an __on_refresh outcome invoked the refresh (remote changed)
callback; a raised AttributeError happens before the callback is reached. -/
def notifies : RefreshDecision → Bool
  | .decided _ n => n
  | .raised => false

/-- Environment of a quiet successful cycle: git operations succeed, HEAD ends
at the given revision, nothing to stage, push would succeed. -/
def envOk (rev : String) : SyncEnv := ⟨true, rev, false, .ok⟩

/-- Environment of a failing cycle: the clean/reset/pull or clone step
raises. -/
def envFail : SyncEnv := ⟨false, "r", false, .ok⟩

/-- Environment of a cycle whose write-back produced working-tree changes and
whose push succeeds. -/
def envPush (rev : String) : SyncEnv := ⟨true, rev, true, .ok⟩

/-- A quiet cached repository state at revision r0. -/
def s0 : CachedFiles := ⟨"r0", 0, [], []⟩

/-- File links of two distinct paths in one repository. -/
def lA : GitFileLink := ⟨"u", "m", "a"⟩

/-- Second file link, path b. -/
def lB : GitFileLink := ⟨"u", "m", "b"⟩

/-- A state with two fetched paths and interleaved pending changes for them:
path a, then path b, then path a again. -/
def o2 : CachedFiles := ⟨"r0", 0, [("a", 0), ("b", 0)], [⟨lA, 1⟩, ⟨lB, 2⟩, ⟨lA, 3⟩]⟩

/-- A state with one fetched path and one pending change for it. -/
def o4 : CachedFiles := ⟨"r0", 0, [("a", 0)], [⟨lA, 7⟩]⟩

/-- A state whose pending changes for path a form one consecutive block after
a change for path b. -/
def o7 : CachedFiles := ⟨"r0", 0, [("a", 0), ("b", 0)], [⟨lB, 9⟩, ⟨lA, 1⟩, ⟨lA, 2⟩]⟩

/-- Environment of a cycle whose write-back staged changes but whose
commit/push raises a porcelain Error. -/
def envPushErr : SyncEnv := ⟨true, "r1", true, .raisesError⟩

/-- The calls of a cycle that target one link, each call keeping its payload
list. -/
def callsFor (k : GitFileLink) (calls : List (GitFileLink × List Nat)) : List (List Nat) :=
  calls.filterMap (fun p => if p.1 = k then some p.2 else none)

/-- The payloads registered for one link, in registration order. -/
def payloadsFor (k : GitFileLink) (cs : List Change) : List Nat :=
  cs.filterMap (fun c => if c.link = k then some c.content else none)

/-- Projection of a group to its payload list when its key is the given link,
none otherwise. -/
def groupProj (k : GitFileLink) (p : GitFileLink × List Change) : Option (List Nat) :=
  if p.1 = k then some (p.2.map Change.content) else none

/-- The groupby groups whose key is one given link, with the payload
projection applied; an observation helper over groupByConsec. -/
def gFor (k : GitFileLink) (cs : List Change) : List (List Nat) :=
  (groupByConsec cs).filterMap (groupProj k)

/-- Initial two-key state: both repositories synced and quiet, shared skip
counter at zero just after a sync. -/
def st3 : TwoKeyState := ⟨some (some ⟨"ra", 0, [], []⟩), some (some ⟨"rb", 1, [], []⟩), 0, 2⟩

/-- Tick schedule interleaving the two keys: two ticks of key b between any
two ticks of key a, all cycles quiet and successful. -/
def sched3 : List (Bool × SyncEnv) :=
  [(false, envOk "rb"), (false, envOk "rb"), (true, envOk "ra1"),
   (false, envOk "rb"), (false, envOk "rb"), (true, envOk "ra2"),
   (false, envOk "rb"), (false, envOk "rb"), (true, envOk "ra3")]

/-- A nonempty list always yields at least one group. -/
lemma groupByConsec_eq_nil {cs : List Change} (h : groupByConsec cs = []) : cs = [] := by
  cases cs with
  | nil => rfl
  | cons c t =>
    exfalso
    cases h2 : groupByConsec t with
    | nil => simp [groupByConsec, h2] at h
    | cons p rest =>
      obtain ⟨k, g⟩ := p
      by_cases hl : c.link = k <;> simp [groupByConsec, h2, hl] at h

/-- Grouping a cons whose head matches the key of the first group of the tail
merges the head into that group. -/
lemma groupByConsec_cons_merge {c : Change} {cs : List Change} {k' : GitFileLink}
    {g : List Change} {rest : List (GitFileLink × List Change)}
    (h2 : groupByConsec cs = (k', g) :: rest) (hck : c.link = k') :
    groupByConsec (c :: cs) = (k', c :: g) :: rest := by
  simp [groupByConsec, h2, hck]

/-- Grouping a cons whose head does not match the key of the first group of
the tail opens a new group. -/
lemma groupByConsec_cons_new {c : Change} {cs : List Change} {k' : GitFileLink}
    {g : List Change} {rest : List (GitFileLink × List Change)}
    (h2 : groupByConsec cs = (k', g) :: rest) (hck : c.link ≠ k') :
    groupByConsec (c :: cs) = (c.link, [c]) :: (k', g) :: rest := by
  simp [groupByConsec, h2, hck]

/-- Grouping a cons over an empty tail yields one singleton group. -/
lemma groupByConsec_singleton {c : Change} {cs : List Change}
    (h2 : groupByConsec cs = []) :
    groupByConsec (c :: cs) = [(c.link, [c])] := by
  simp [groupByConsec, h2]

/-- callsFor over the applier call list coincides with the group observation
helper. -/
lemma callsFor_applyCalls (k : GitFileLink) (cs : List Change) :
    callsFor k (applyCalls cs) = gFor k cs := by
  unfold callsFor applyCalls gFor
  induction groupByConsec cs with
  | nil => rfl
  | cons p rest ih =>
    obtain ⟨k', g⟩ := p
    by_cases h : k' = k <;> simp [List.filterMap_cons, groupProj, h, ih]

/-- Every group key is the link of some grouped change; with no change for
the link k, no group key equals k. -/
lemma groupByConsec_key_ne (k : GitFileLink) :
    ∀ cs : List Change, (∀ c ∈ cs, c.link ≠ k) → ∀ p ∈ groupByConsec cs, p.1 ≠ k
  | [], _, p, hp => by simp [groupByConsec] at hp
  | c :: cs, h, p, hp => by
    have ih := groupByConsec_key_ne k cs (fun d hd => h d (List.mem_cons_of_mem c hd))
    have hc : c.link ≠ k := h c (List.mem_cons_self c cs)
    cases h2 : groupByConsec cs with
    | nil =>
      rw [groupByConsec_singleton h2] at hp
      simp only [List.mem_singleton] at hp
      subst hp
      exact hc
    | cons q rest =>
      obtain ⟨k', g⟩ := q
      by_cases hck : c.link = k'
      · rw [groupByConsec_cons_merge h2 hck] at hp
        rcases List.mem_cons.mp hp with h1 | h1
        · subst h1
          exact hck ▸ hc
        · exact ih p (h2.symm ▸ List.mem_cons_of_mem _ h1)
      · rw [groupByConsec_cons_new h2 hck] at hp
        rcases List.mem_cons.mp hp with h1 | h1
        · subst h1
          exact hc
        · exact ih p (h2.symm ▸ h1)

/-- A group list whose keys all differ from k is filtered away entirely. -/
lemma filterMap_group_nil {k : GitFileLink} :
    ∀ l : List (GitFileLink × List Change), (∀ p ∈ l, p.1 ≠ k) →
      l.filterMap (groupProj k) = []
  | [], _ => rfl
  | p :: rest, h => by
    have hp : groupProj k p = none := by
      simp [groupProj, h p (List.mem_cons_self p rest)]
    rw [List.filterMap_cons, hp]
    exact filterMap_group_nil rest (fun q hq => h q (List.mem_cons_of_mem _ hq))

/-- A list with no change for the link contributes no group for it. -/
lemma gFor_nil_of_ne (k : GitFileLink) (cs : List Change)
    (h : ∀ c ∈ cs, c.link ≠ k) : gFor k cs = [] :=
  filterMap_group_nil (groupByConsec cs) (groupByConsec_key_ne k cs h)

/-- Dropping a head change for another link does not affect the groups of the
given link. -/
lemma gFor_drop_head {k : GitFileLink} {c : Change} (cs : List Change)
    (hcl : c.link ≠ k) : gFor k (c :: cs) = gFor k cs := by
  cases h2 : groupByConsec cs with
  | nil =>
    cases groupByConsec_eq_nil h2
    unfold gFor
    rw [groupByConsec_singleton h2]
    simp [groupByConsec, groupProj, List.filterMap_cons, hcl]
  | cons q rest =>
    obtain ⟨k', g⟩ := q
    by_cases hck : c.link = k'
    · have hk' : k' ≠ k := hck ▸ hcl
      unfold gFor
      rw [groupByConsec_cons_merge h2 hck, h2]
      simp [List.filterMap_cons, groupProj, hk']
    · unfold gFor
      rw [groupByConsec_cons_new h2 hck, h2]
      simp [List.filterMap_cons, groupProj, hcl]

/-- Concatenating the per-group payload lists for one link restores the
registration-order payload list of that link. -/
lemma gFor_join (k : GitFileLink) : ∀ cs : List Change, (gFor k cs).flatten = payloadsFor k cs
  | [] => rfl
  | c :: cs => by
    have ih := gFor_join k cs
    by_cases hl : c.link = k
    · cases h2 : groupByConsec cs with
      | nil =>
        cases groupByConsec_eq_nil h2
        simp [gFor, groupByConsec, payloadsFor, groupProj, hl]
      | cons q rest =>
        obtain ⟨k', g⟩ := q
        by_cases hck : c.link = k'
        · have hkk : k' = k := hck ▸ hl
          rw [hkk] at h2 hck
          have hg := groupByConsec_cons_merge h2 hck
          have hcs : gFor k cs = (g.map Change.content) :: List.filterMap (groupProj k) rest := by
            unfold gFor
            rw [h2, List.filterMap_cons]
            simp [groupProj]
          have hstep : gFor k (c :: cs)
              = ((c :: g).map Change.content) :: List.filterMap (groupProj k) rest := by
            unfold gFor
            rw [hg, List.filterMap_cons]
            simp [groupProj]
          rw [hstep, List.flatten_cons, List.map_cons, List.cons_append]
          rw [show (List.map Change.content g) ++ (List.filterMap (groupProj k) rest).flatten
              = (gFor k cs).flatten from by rw [hcs, List.flatten_cons]]
          rw [ih]
          rw [show payloadsFor k (c :: cs) = c.content :: payloadsFor k cs from by
            rw [payloadsFor, payloadsFor, List.filterMap_cons, if_pos hl]]
        · have hg := groupByConsec_cons_new h2 hck
          have hstep : gFor k (c :: cs) = [c.content] :: gFor k cs := by
            unfold gFor
            rw [hg, List.filterMap_cons, ← h2]
            simp [groupProj, hl]
          rw [hstep, List.flatten_cons, ih]
          rw [show payloadsFor k (c :: cs) = c.content :: payloadsFor k cs from by
            rw [payloadsFor, payloadsFor, List.filterMap_cons, if_pos hl]]
          rfl
    · rw [gFor_drop_head cs hl, ih]
      rw [show payloadsFor k (c :: cs) = payloadsFor k cs from by
        rw [payloadsFor, payloadsFor, List.filterMap_cons, if_neg hl]]

/-- A nonempty block of changes for one link followed by changes for other
links groups into a single leading group carrying the whole block. -/
lemma groupByConsec_block (k : GitFileLink) :
    ∀ kb : List Change, kb ≠ [] → (∀ c ∈ kb, c.link = k) →
      ∀ l2 : List Change, (∀ c ∈ l2, c.link ≠ k) →
      groupByConsec (kb ++ l2) = (k, kb) :: groupByConsec l2
  | [], h, _, _, _ => absurd rfl h
  | [c], _, hk, l2, h2 => by
    have hc : c.link = k := hk c (List.mem_cons_self c [])
    cases h3 : groupByConsec l2 with
    | nil =>
      cases groupByConsec_eq_nil h3
      simp [groupByConsec, hc]
    | cons q rest =>
      obtain ⟨k', g⟩ := q
      have hne : k' ≠ k := groupByConsec_key_ne k l2 h2 (k', g) (h3.symm ▸ List.mem_cons_self _ _)
      have hcne : c.link ≠ k' := by rw [hc]; exact Ne.symm hne
      rw [List.singleton_append, groupByConsec_cons_new h3 hcne, hc]
  | c :: c' :: kb, _, hk, l2, h2 => by
    have ih := groupByConsec_block k (c' :: kb) (by simp)
      (fun d hd => hk d (List.mem_cons_of_mem c hd)) l2 h2
    have hc : c.link = k := hk c (List.mem_cons_self _ _)
    rw [show ((c :: c' :: kb) ++ l2) = c :: ((c' :: kb) ++ l2) from rfl,
      groupByConsec_cons_merge ih hc]

/-- With k-free lists on both sides, the block of changes for k is delivered
as exactly one group. -/
lemma gFor_block (k : GitFileLink) (l1 kb l2 : List Change)
    (h1 : ∀ c ∈ l1, c.link ≠ k) (hkb : kb ≠ []) (hk : ∀ c ∈ kb, c.link = k)
    (h2 : ∀ c ∈ l2, c.link ≠ k) :
    gFor k (l1 ++ kb ++ l2) = [kb.map Change.content] := by
  induction l1 with
  | nil =>
    simp only [List.nil_append]
    unfold gFor
    rw [groupByConsec_block k kb hkb hk l2 h2, List.filterMap_cons,
      show groupProj k (k, kb) = some (kb.map Change.content) from by simp [groupProj],
      filterMap_group_nil (groupByConsec l2) (groupByConsec_key_ne k l2 h2)]
  | cons c l1 ih =>
    have hcl : c.link ≠ k := h1 c (List.mem_cons_self _ _)
    rw [show ((c :: l1) ++ kb ++ l2) = c :: (l1 ++ kb ++ l2) from rfl,
      gFor_drop_head _ hcl]
    exact ih (fun d hd => h1 d (List.mem_cons_of_mem _ hd))

/-- A cycle that actually runs (pending changes present, git operations
succeed) makes exactly the applier calls produced by grouping the pending
list. -/
lemma syncRepo_calls (M skip f : Nat) (o : CachedFiles) (env : SyncEnv)
    (hch : o.changes ≠ []) (hgit : env.gitOk = true) :
    (syncRepo M skip (some o) env f).calls = applyCalls o.changes := by
  obtain ⟨g, rev, stg, pu⟩ := env
  simp only at hgit
  subst hgit
  cases stg <;> cases pu <;> simp [syncRepo, syncBody, addCommitPush, hch]

/-- C1: with a previously cached state, a sync cycle whose git operations
raise is swallowed by __sync_repo, which returns None; __on_refresh then
dereferences None and the resulting exception escapes __load_and_save into
the __schedule loop, terminating the background thread — while the cached
state is left in place. This contradicts the claim that no exception
propagates out of the loop and that the loop continues. -/
theorem sync_failure_kills_refresh_loop :
    (tickS 10 ⟨⟨some (some s0), 9, 1⟩, true⟩ envFail).cs.cache = some (some s0)
  ∧ (tickS 10 ⟨⟨some (some s0), 9, 1⟩, true⟩ envFail).alive = false := by decide

/-- C6: with no cached value, a failing synchronous initial load through
RefreshCache.get does not propagate the failure: __sync_repo swallows it and
returns None, __on_refresh fires the notifier and returns True, so None is
cached for the key and returned to the caller. This contradicts the claim
that the failure propagates and nothing is cached. -/
theorem initial_load_failure_caches_none :
    (cacheGet 10 ⟨none, 0, 0⟩ envFail).ret = LoadOutcome.returned none
  ∧ (cacheGet 10 ⟨none, 0, 0⟩ envFail).st.cache = some none
  ∧ (cacheGet 10 ⟨none, 0, 0⟩ envFail).notified = true := by decide

/-- C3: the skip counter is shared across repository keys, so with multiplier
3 and no pending changes anywhere, interleaving two quiet ticks of key b
between ticks of key a makes every scheduled tick of key a reach the network
section: three consecutive ticks of key a all perform I/O, violating the
claimed at-most-one-in-M bound for that key. The final states confirm no
pending changes existed throughout. -/
theorem skip_counter_shared_across_keys :
    (tick2run 3 st3 sched3).2 = [false, false, true, false, false, true, false, false, true]
  ∧ (tick2run 3 st3 sched3).1.a = some (some ⟨"ra3", 0, [], []⟩)
  ∧ (tick2run 3 st3 sched3).1.b = some (some ⟨"rb", 1, [], []⟩) := by decide

/-- C10: any GitSource construction raises TypeError before any caching or
git activity: the keyword sync_interval_seconds passed to RefreshCache
matches no parameter of RefreshCache.__init__ (which takes
refresh_rate_seconds), and this does not depend on the argument values. -/
theorem git_source_constructor_type_error (args : GitSourceInitArgs) :
    gitSourceInit args = false
  ∧ gitSourceRefreshCacheKwargs.filter (fun k => !refreshCacheParams.contains k)
      = ["sync_interval_seconds"] :=
  ⟨rfl, by decide⟩

/-- C2 counterexample: in a cycle whose pending changes interleave paths a, b,
a with payloads 1, 2, 3, the applier receives two separate calls for path a
([1] and [3]) rather than the single call [1, 3] the claim requires, because
itertools.groupby only groups consecutive registrations. -/
theorem write_back_single_call_cex :
    callsFor lA (syncRepo 10 0 (some o2) (envPush "r1") 5).calls = [[1], [3]]
  ∧ (callsFor lA (syncRepo 10 0 (some o2) (envPush "r1") 5).calls).length ≠ 1 := by decide

/-- C4 counterexample: a cycle with a pending change whose write-back leaves
the working tree unmodified (nothing to stage) clears the pending-changes
list without any push having run, let alone succeeded, contradicting the
claim that the list is cleared only by a cycle whose push succeeds. -/
theorem pending_cleared_without_push_cex :
    o4.changes ≠ []
  ∧ (syncRepo 10 0 (some o4) (envOk "r0") 5).pushed = false
  ∧ (syncRepo 10 0 (some o4) (envOk "r0") 5).finalChanges = []
  ∧ (syncRepo 10 0 (some o4) (envOk "r0") 5).result = some ⟨"r0", 0, [], []⟩ := by decide

/-- C7: register_change raises LookupError and leaves the pending list
untouched exactly when the path is absent from the content map; for a
previously fetched path it appends the change at the end of the pending
list. -/
theorem register_change_requires_prior_fetch (link : GitFileLink) (v : Nat) (cf : CachedFiles) :
    ((cf.content.map Prod.fst).contains link.path = false →
      registerChange link v cf = RegisterResult.lookupError)
  ∧ ((cf.content.map Prod.fst).contains link.path = true →
      registerChange link v cf = RegisterResult.okay { cf with changes := cf.changes ++ [⟨link, v⟩] }) := by
  unfold registerChange
  constructor <;> intro h <;> rw [h] <;> simp

/-- C7 witness: on a state whose content map holds path a only, registering a
change for path a appends it and registering for path b fails. -/
theorem register_change_requires_prior_fetch_witness :
    registerChange lA 5 o4 = RegisterResult.okay ⟨"r0", 0, [("a", 0)], [⟨lA, 7⟩, ⟨lA, 5⟩]⟩
  ∧ registerChange lB 5 o4 = RegisterResult.lookupError :=
  ⟨(register_change_requires_prior_fetch lA 5 o4).2 (by decide),
   (register_change_requires_prior_fetch lB 5 o4).1 (by decide)⟩

/-- C8: inserting a fresh key into a session cache that is at capacity and has
no expired entry raises CapacityException and leaves every existing entry
unmodified. -/
theorem capacity_hard_fail (now : Nat) (k : String) (v ttl : Nat) (c : LimitedTtlCache)
    (hlive : ∀ e ∈ c.entries, now < e.expiry)
    (hfull : c.entries.length = c.maxsize)
    (hfresh : (c.entries.map TtlEntry.key).contains k = false) :
    setItem now k v ttl c = (true, c) := by
  have hfil : c.entries.filter (fun e => decide (now < e.expiry)) = c.entries :=
    List.filter_eq_self.mpr (fun e he => decide_eq_true (hlive e he))
  have hexp : expire now c = c := by
    unfold expire
    rw [hfil]
  simp only [setItem, hexp, hfresh, hfull]
  simp [Nat.lt_succ_self]

/-- C8 witness: a full two-entry cache with live entries rejects a fresh
key. -/
theorem capacity_hard_fail_witness :
    setItem 10 "z" 9 5 ⟨2, [⟨"x", 1, 100⟩, ⟨"y", 2, 100⟩]⟩
      = (true, ⟨2, [⟨"x", 1, 100⟩, ⟨"y", 2, 100⟩]⟩) :=
  capacity_hard_fail 10 "z" 9 5 ⟨2, [⟨"x", 1, 100⟩, ⟨"y", 2, 100⟩]⟩
    (by decide) (by decide) (by decide)

/-- C5: the remote-changed notifier fires on a produced state exactly when
there was no previous state or the revision differs; identical revisions give
the decision pair (no commit, no notification); and a skipped cycle returns
the previous state itself, on which the decision is never to notify. -/
theorem revision_gated_notification (old : Option CachedFiles) (n : CachedFiles) :
    (notifies (onRefresh old (some n)) = true ↔
      old = none ∨ ∃ o, old = some o ∧ o.rev ≠ n.rev)
  ∧ (∀ o, old = some o → o.rev = n.rev → onRefresh old (some n) = RefreshDecision.decided false false)
  ∧ (∀ M skip env f o, old = some o → o.changes = [] → skip < M - 1 →
      (syncRepo M skip old env f).result = some o ∧ notifies (onRefresh old (some o)) = false) := by
  refine ⟨?_, ?_, ?_⟩
  · cases old with
    | none => simp [onRefresh, notifies]
    | some o => by_cases h : o.rev = n.rev <;> simp [onRefresh, notifies, h]
  · intro o ho heq
    cases ho
    simp [onRefresh, heq]
  · intro M skip env f o ho hch hskip
    cases ho
    exact ⟨by simp [syncRepo, hch, hskip], by simp [onRefresh, notifies]⟩

/-- C5 witness: on a cached state at r0, a produced state at r1 notifies, an
identical-revision state gives the silent no-commit decision, and a skipped
cycle returns the previous state with no notification. -/
theorem revision_gated_notification_witness :
    notifies (onRefresh (some s0) (some ⟨"r1", 0, [], []⟩)) = true
  ∧ onRefresh (some s0) (some s0) = RefreshDecision.decided false false
  ∧ (syncRepo 3 0 (some s0) (envOk "rx") 5).result = some s0 :=
  ⟨((revision_gated_notification (some s0) ⟨"r1", 0, [], []⟩).1).mpr
      (Or.inr ⟨s0, rfl, by decide⟩),
   (revision_gated_notification (some s0) s0).2.1 s0 rfl rfl,
   ((revision_gated_notification (some s0) s0).2.2 3 0 (envOk "rx") 5 s0 rfl rfl (by decide)).1⟩

/-- C2: the write-back applier receives, across its calls for one path, all
payloads registered for that path in registration order; and when the changes
for that path form one consecutive block (no other-path registrations
interleaved among them), they arrive in exactly one call carrying the full
ordered payload list. With interleaving, each maximal consecutive run arrives
as its own call. -/
theorem write_back_order_per_run (M skip f : Nat) (o : CachedFiles) (env : SyncEnv)
    (k : GitFileLink) (hch : o.changes ≠ []) (hgit : env.gitOk = true) :
    (callsFor k (syncRepo M skip (some o) env f).calls).flatten = payloadsFor k o.changes
  ∧ (∀ l1 kb l2, o.changes = l1 ++ kb ++ l2 → kb ≠ [] →
      (∀ c ∈ l1, c.link ≠ k) → (∀ c ∈ kb, c.link = k) → (∀ c ∈ l2, c.link ≠ k) →
      callsFor k (syncRepo M skip (some o) env f).calls = [kb.map Change.content]) := by
  have hcalls := syncRepo_calls M skip f o env hch hgit
  constructor
  · rw [hcalls, callsFor_applyCalls]
    exact gFor_join k o.changes
  · intro l1 kb l2 hdec hkb h1 hk h2
    rw [hcalls, callsFor_applyCalls, hdec]
    exact gFor_block k l1 kb l2 h1 hkb hk h2

/-- C2 witness: on the interleaved list the payloads for path a arrive in
order 1, 3, and on a consecutive block after a path-b change the payloads 1, 2
arrive in one single call. -/
theorem write_back_order_per_run_witness :
    (callsFor lA (syncRepo 10 0 (some o2) (envPush "r1") 5).calls).flatten
      = payloadsFor lA o2.changes
  ∧ callsFor lA (syncRepo 10 0 (some o7) (envPush "r1") 5).calls = [[1, 2]] :=
  ⟨(write_back_order_per_run 10 0 5 o2 (envPush "r1") lA (by decide) rfl).1,
   by
     have h := (write_back_order_per_run 10 0 5 o7 (envPush "r1") lA (by decide) rfl).2
       [⟨lB, 9⟩] [⟨lA, 1⟩, ⟨lA, 2⟩] [] rfl (by decide) (by decide) (by decide) (by decide)
     simpa using h⟩

/-- C4: a cycle with pending changes whose staged push raises a porcelain
Error keeps every pending change (in the list and in the produced state); one
whose push raises any other exception keeps them too and yields no new state;
and the pending list ends empty exactly when the cycle either pushed
successfully or found nothing to stage. -/
theorem pending_changes_push_failure (M skip f : Nat) (o : CachedFiles) (env : SyncEnv)
    (hch : o.changes ≠ []) (hgit : env.gitOk = true) :
    (env.stageNonempty = true → env.push = PushBehavior.raisesError →
        (syncRepo M skip (some o) env f).finalChanges = o.changes
      ∧ (syncRepo M skip (some o) env f).result
          = some ⟨env.newRev, o.lockId, [], o.changes⟩)
  ∧ (env.stageNonempty = true → env.push = PushBehavior.raisesOther →
        (syncRepo M skip (some o) env f).finalChanges = o.changes
      ∧ (syncRepo M skip (some o) env f).result = none)
  ∧ ((syncRepo M skip (some o) env f).finalChanges = []
      ↔ ((syncRepo M skip (some o) env f).pushed = true ∨ env.stageNonempty = false)) := by
  obtain ⟨g, rev, stg, pu⟩ := env
  have hg : g = true := hgit
  subst hg
  cases stg <;> cases pu <;>
    simp [syncRepo, syncBody, addCommitPush, hch]

/-- C4 witness: a cycle over a state with one pending change whose push raises
a porcelain Error preserves the change in the produced state. -/
theorem pending_changes_push_failure_witness :
    (syncRepo 10 0 (some o4) envPushErr 5).finalChanges = o4.changes
  ∧ (syncRepo 10 0 (some o4) envPushErr 5).result = some ⟨"r1", 0, [], [⟨lA, 7⟩]⟩
  ∧ ((syncRepo 10 0 (some o4) envPushErr 5).finalChanges = []
      ↔ ((syncRepo 10 0 (some o4) envPushErr 5).pushed = true
        ∨ envPushErr.stageNonempty = false)) :=
  have h := pending_changes_push_failure 10 0 5 o4 envPushErr (by decide) rfl
  ⟨(h.1 rfl rfl).1, (h.1 rfl rfl).2, h.2.2⟩

/-- A produced state always carries the lock of the previous state. -/
lemma syncRepo_lockId (M skip f : Nat) (o : CachedFiles) (env : SyncEnv)
    (n : CachedFiles) (h : (syncRepo M skip (some o) env f).result = some n) :
    n.lockId = o.lockId := by
  obtain ⟨g, rev, stg, pu⟩ := env
  by_cases hch : o.changes = [] <;> by_cases hsk : skip < M - 1 <;>
    cases g <;> cases stg <;> cases pu <;>
      simp [syncRepo, syncBody, addCommitPush, hch, hsk] at h <;>
      rw [← h]

/-- One __load_and_save pass keeps the cached state present and keeps its
lock. -/
lemma loadAndSave_lockId (M sk nl : Nat) (env : SyncEnv) (s : CachedFiles) :
    ∃ t, (loadAndSave M ⟨some (some s), sk, nl⟩ env).st.cache = some (some t)
      ∧ t.lockId = s.lockId := by
  cases hr : (syncRepo M sk (some s) env nl).result with
  | none =>
    refine ⟨{ s with changes := (syncRepo M sk (some s) env nl).finalChanges }, ?_, rfl⟩
    simp [loadAndSave, onRefresh, hr]
  | some n =>
    by_cases hrev : s.rev = n.rev
    · refine ⟨{ s with changes := (syncRepo M sk (some s) env nl).finalChanges }, ?_, rfl⟩
      simp [loadAndSave, onRefresh, hr, hrev]
    · refine ⟨n, ?_, syncRepo_lockId M sk nl s env n hr⟩
      simp [loadAndSave, onRefresh, hr, hrev]

/-- One loop tick keeps the cached state present and keeps its lock. -/
lemma tickS_lockId (M : Nat) (ls : LoopState) (env : SyncEnv) (s : CachedFiles)
    (h : ls.cs.cache = some (some s)) :
    ∃ t, (tickS M ls env).cs.cache = some (some t) ∧ t.lockId = s.lockId := by
  obtain ⟨⟨cc, sk, nl⟩, al⟩ := ls
  have h' : cc = some (some s) := h
  subst h'
  cases al with
  | false => exact ⟨s, rfl, rfl⟩
  | true =>
    obtain ⟨t, ht, hl⟩ := loadAndSave_lockId M sk nl env s
    exact ⟨t, ht, hl⟩

/-- Along any run of the background loop, a cached state never changes its
lock. -/
lemma runLoop_lockId (M : Nat) :
    ∀ (envs : List SyncEnv) (ls : LoopState) (s : CachedFiles),
      ls.cs.cache = some (some s) →
      ∀ s', (runLoop M ls envs).cs.cache = some (some s') → s'.lockId = s.lockId
  | [], ls, s, h, s', h' => by
    rw [runLoop, List.foldl_nil, h] at h'
    injection h' with h'
    injection h' with h'
    rw [← h']
  | e :: rest, ls, s, h, s', h' => by
    obtain ⟨t, ht, hl⟩ := tickS_lockId M ls e s h
    have h2 : (runLoop M (tickS M ls e) rest).cs.cache = some (some s') := by
      rw [runLoop, List.foldl_cons] at h'
      exact h'
    rw [runLoop_lockId M rest (tickS M ls e) t ht s' h2, hl]

/-- C9: once a repository state is cached, every state cached by any later
run of refresh cycles (skipped, real, or failing) carries the same lock
allocation as the earlier one: the lock created for the first state is never
replaced. -/
theorem lock_never_replaced (M : Nat) (pre suf : List SyncEnv) (s s' : CachedFiles)
    (h1 : (runLoop M loopInit pre).cs.cache = some (some s))
    (h2 : (runLoop M (runLoop M loopInit pre) suf).cs.cache = some (some s')) :
    s'.lockId = s.lockId :=
  runLoop_lockId M suf (runLoop M loopInit pre) s h1 s' h2

/-- C9 witness: the first sync creates lock 0 and a later real sync at a new
revision still carries lock 0. -/
theorem lock_never_replaced_witness :
    (runLoop 1 loopInit [envOk "r1"]).cs.cache = some (some ⟨"r1", 0, [], []⟩)
  ∧ (runLoop 1 (runLoop 1 loopInit [envOk "r1"]) [envOk "r2"]).cs.cache
      = some (some ⟨"r2", 0, [], []⟩)
  ∧ (CachedFiles.mk "r2" 0 [] []).lockId = (CachedFiles.mk "r1" 0 [] []).lockId :=
  ⟨by decide, by decide,
   lock_never_replaced 1 [envOk "r1"] [envOk "r2"] ⟨"r1", 0, [], []⟩ ⟨"r2", 0, [], []⟩
     (by decide) (by decide)⟩

end Deltabanana
